import Mathlib

/-!
Shallow embedding of the dialog-state management and constrained-retrieval
engine in src/prompt/ai-customer-service/advisor.py: the DST merge
(DST.update), the mocked catalog database (MockedDB.retrieve,
MockedDB.match_record, MockedDB.sort_records) and the per-turn orchestration
(DialogManager.run).  Python dict values are modelled by the Value type,
dicts by insertion-ordered association lists, and Python exceptions by
Except String.
-/

namespace Advisor

/-- Python values as they occur in the advisor: None, strings, integers and
(string-keyed, insertion-ordered) dicts. -/
inductive Value : Type where
  | null : Value
  | str : String → Value
  | int : Int → Value
  | dict : List (String × Value) → Value

/-- Python `v == "=="` for a dict-or-absent lookup result: true exactly when
the value is present and is that string (equality across types is False). -/
def isStrEq (v : Option Value) (s : String) : Bool :=
  match v with
  | some (Value.str t) => t == s
  | _ => false

/-- A Python dict with string keys: an insertion-ordered association list.
Keys are unique in every dict the program builds. -/
abbrev Dict := List (String × Value)

/-- The dialog state and NLU semantics are dicts. -/
abbrev State := Dict

/-- Python d.get(k): the value at key k, or None-as-absent. -/
def dictGet (d : Dict) (k : String) : Option Value :=
  (d.find? (fun p => p.1 == k)).map (fun p => p.2)

/-- Python `k in d`. -/
def containsKey (d : Dict) (k : String) : Bool :=
  d.any (fun p => p.1 == k)

/-- Python `del d[k]`. -/
def eraseKey (d : Dict) (k : String) : Dict :=
  d.filter (fun p => !(p.1 == k))

/-- Python `d[k] = v`: replace the binding in place when the key exists
(keys are unique, so the first occurrence is the binding), else append. -/
def insertKey : Dict → String → Value → Dict
  | [], k, v => [(k, v)]
  | p :: ps, k, v => if p.1 == k then (k, v) :: ps else p :: insertKey ps k v

/-- Python `d.update(m)`. -/
def dictUpdate (d m : Dict) : Dict :=
  m.foldl (fun acc p => insertKey acc p.1 p.2) d

/-- Python subscript `v[k]`: KeyError on a dict missing the key, TypeError on
a non-dict. -/
def Value.getItem : Value → String → Except String Value
  | Value.dict d, k =>
    match dictGet d k with
    | some v => Except.ok v
    | none => Except.error "KeyError"
  | _, _ => Except.error "TypeError"

/-- Steps 2 and 3 of DST.update (the sort-conflict rule and the merge),
applied to the state left by the name-triggered clear of step 1: returns
the state the dict object holds when the call finishes, plus the exception
if one was raised.  The raise points are semantics["sort"]["value"]
(TypeError on a non-dict, KeyError on a dict without "value"),
`slot in state` on an unhashable dict slot (TypeError), and
state[slot].get("operator") on a non-dict slot value (AttributeError);
a hashable non-string slot is simply not a key of the state. -/
def DST.sortMergeRes (st1 semantics : State) : State × Option String :=
  match dictGet semantics "sort" with
  | none => (dictUpdate st1 semantics, none)
  | some sortVal =>
    match sortVal.getItem "value" with
    | Except.error e => (st1, some e)
    | Except.ok slot =>
      match slot with
      | Value.str a =>
        match dictGet st1 a with
        | none => (dictUpdate st1 semantics, none)
        | some (Value.dict c) =>
          if isStrEq (dictGet c "operator") "==" then
            (dictUpdate (eraseKey st1 a) semantics, none)
          else (dictUpdate st1 semantics, none)
        | some _ => (st1, some "AttributeError")
      | Value.dict _ => (st1, some "TypeError")
      | _ => (dictUpdate st1 semantics, none)

/-- DST.update from advisor.py, with the in-place mutation made explicit:
the final state of the mutated dict, plus the exception if one was raised. -/
def DST.updateRes (state semantics : State) : State × Option String :=
  DST.sortMergeRes (if containsKey semantics "name" then [] else state) semantics

/-- DST.update as a fallible function: the returned state, or the exception. -/
def DST.update (state semantics : State) : Except String State :=
  match DST.updateRes state semantics with
  | (st, none) => Except.ok st
  | (_, some e) => Except.error e

/-- One catalog record of MockedDB: the dict shape built in
MockedDB.__init__ (keys name, price, data, requirement, in that order). -/
structure Record where
  name : String
  price : Int
  data : Int
  requirement : Option String
deriving DecidableEq, Repr

/-- Python `record[key]` on a catalog record: KeyError outside the four
fixed keys. -/
def Record.get (r : Record) (k : String) : Except String Value :=
  if k == "name" then Except.ok (Value.str r.name)
  else if k == "price" then Except.ok (Value.int r.price)
  else if k == "data" then Except.ok (Value.int r.data)
  else if k == "requirement" then
    Except.ok (match r.requirement with
      | some s => Value.str s
      | none => Value.null)
  else Except.error "KeyError"

/-- The fixed 4-record catalog from MockedDB.__init__. -/
def mockedDBData : List Record :=
  [⟨"经济套餐", 50, 10, none⟩,
   ⟨"畅游套餐", 180, 100, none⟩,
   ⟨"无限套餐", 300, 1000, none⟩,
   ⟨"校园套餐", 150, 200, some "在校生"⟩]

mutual

/-- Python repr() of a value (str and repr agree except on strings). -/
def pyRepr : Value → String
  | Value.null => "None"
  | Value.str s => "\x27" ++ s ++ "\x27"
  | Value.int n => toString n
  | Value.dict d => "\x7b" ++ pyReprEntries d ++ "\x7d"

/-- Comma-separated `key: value` renderings of a dict body, repr-style. -/
def pyReprEntries : List (String × Value) → String
  | [] => ""
  | [(k, v)] => "\x27" ++ k ++ "\x27: " ++ pyRepr v
  | (k, v) :: p :: rest =>
    "\x27" ++ k ++ "\x27: " ++ pyRepr v ++ ", " ++ pyReprEntries (p :: rest)

end

/-- Python str() of a value: like repr, but a bare string renders as its own
content (this is what f-string interpolation and str() produce). -/
def pyStr : Value → String
  | Value.str s => s
  | v => pyRepr v

/-- An operand of the eval-ed comparison string, after f-string rendering
and re-parsing: a rendered int or numeral string is a number literal, None
renders to the None object, a dict renders to a dict display; any other
string renders to an undefined identifier (or garbage), which eval reports
as an error. -/
inductive PyVal where
  | num : Int → PyVal
  | nonev : PyVal
  | dictv : Dict → PyVal

/-- Value of a decimal digit character, if it is one. -/
def digitVal? (c : Char) : Option Nat :=
  if 48 ≤ c.toNat && c.toNat ≤ 57 then some (c.toNat - 48) else none

/-- Accumulate a run of decimal digits; none on a non-digit. -/
def digitsAux : List Char → Nat → Option Nat
  | [], acc => some acc
  | c :: cs, acc =>
    match digitVal? c with
    | some dv => digitsAux cs (acc * 10 + dv)
    | none => none

/-- An int literal as the eval-ed comparison string contains it: an
optional minus sign followed by one or more digits. -/
def pyIntLit? (s : String) : Option Int :=
  match s.data with
  | [] => none
  | List.cons c cs =>
    if c == '-' then
      match cs with
      | [] => none
      | _ => (digitsAux cs 0).map (fun n => -(n : Int))
    else (digitsAux (c :: cs) 0).map (fun n => (n : Int))

/-- Parse one rendered operand of the eval string. -/
def parseOperand : Value → Except String PyVal
  | Value.int n => Except.ok (PyVal.num n)
  | Value.null => Except.ok PyVal.nonev
  | Value.dict d => Except.ok (PyVal.dictv d)
  | Value.str s =>
    match pyIntLit? s with
    | some n => Except.ok (PyVal.num n)
    | none => Except.error "NameError"

/-- Python `==` on mixed-type operands: equal types compare structurally,
different types are unequal.  The left operand always comes from a catalog
record, so it is never a dict and the dict/dict case is unreachable. -/
def pyValEq : PyVal → PyVal → Bool
  | PyVal.num a, PyVal.num b => a == b
  | PyVal.nonev, PyVal.nonev => true
  | _, _ => false

/-- The eval(f"\x7brecord[key]\x7d\x7boperator\x7d\x7bvalue\x7d") call in
MockedDB._match_record: render both operands, parse the concatenation back,
and evaluate the comparison.  Ordering operators on non-numbers raise
TypeError; == and != tolerate mixed types. -/
def evalCompare (rv opv vv : Value) : Except String Bool :=
  match opv with
  | Value.str o =>
    if o == "==" || o == "!=" || o == "<=" || o == ">=" || o == "<" || o == ">" then
      match parseOperand rv with
      | Except.error e => Except.error e
      | Except.ok a =>
        match parseOperand vv with
        | Except.error e => Except.error e
        | Except.ok b =>
          match a, b with
          | PyVal.num x, PyVal.num y =>
            if o == "==" then Except.ok (x == y)
            else if o == "!=" then Except.ok (x != y)
            else if o == "<=" then Except.ok (decide (x ≤ y))
            else if o == ">=" then Except.ok (decide (y ≤ x))
            else if o == "<" then Except.ok (decide (x < y))
            else Except.ok (decide (y < x))
          | a, b =>
            if o == "==" then Except.ok (pyValEq a b)
            else if o == "!=" then Except.ok (!(pyValEq a b))
            else Except.error "TypeError"
    else Except.error "SyntaxError"
  | _ => Except.error "SyntaxError"

/-- The guard of the unbounded-sentinel branch in MockedDB._match_record:
isinstance(value, dict) and value.get("value") == "无上限". -/
def isSentinelDict (v : Value) : Bool :=
  match v with
  | Value.dict d => isStrEq (dictGet d "value") "无上限"
  | _ => false

/-- MockedDB._match_record: walk the condition items in insertion order;
"sort" is skipped, a dict-shaped "data" condition whose value is "无上限"
matches exactly data == 1000, a dict with an "operator" key is evaluated by
eval, anything else is a string-normalized exact match. -/
def MockedDB.match_record (record : Record) : List (String × Value) → Except String Bool
  | [] => Except.ok true
  | (key, value) :: rest =>
    if key == "sort" then MockedDB.match_record record rest
    else if key == "data" && isSentinelDict value then
      if record.data != 1000 then Except.ok false
      else MockedDB.match_record record rest
    else
      match value with
      | Value.dict d =>
        if containsKey d "operator" then
          match record.get key with
          | Except.error e => Except.error e
          | Except.ok rv =>
            match (Value.dict d).getItem "value" with
            | Except.error e => Except.error e
            | Except.ok vv =>
              match evalCompare rv ((dictGet d "operator").getD Value.null) vv with
              | Except.error e => Except.error e
              | Except.ok b =>
                if b then MockedDB.match_record record rest else Except.ok false
        else
          match record.get key with
          | Except.error e => Except.error e
          | Except.ok rv =>
            if pyStr rv != pyStr (Value.dict d) then Except.ok false
            else MockedDB.match_record record rest
      | v =>
        match record.get key with
        | Except.error e => Except.error e
        | Except.ok rv =>
          if pyStr rv != pyStr v then Except.ok false
          else MockedDB.match_record record rest

/-- The ordinary (non-sentinel) per-key evaluation of _match_record, i.e.
the operator branch and the exact-match fallback, as one key-level function:
whether the record satisfies this single condition. -/
def MockedDB.operator_branch (record : Record) (key : String) (value : Value) :
    Except String Bool :=
  match value with
  | Value.dict d =>
    if containsKey d "operator" then
      match record.get key with
      | Except.error e => Except.error e
      | Except.ok rv =>
        match (Value.dict d).getItem "value" with
        | Except.error e => Except.error e
        | Except.ok vv => evalCompare rv ((dictGet d "operator").getD Value.null) vv
    else
      match record.get key with
      | Except.error e => Except.error e
      | Except.ok rv => Except.ok (pyStr rv == pyStr (Value.dict d))
  | v =>
    match record.get key with
    | Except.error e => Except.error e
    | Except.ok rv => Except.ok (pyStr rv == pyStr v)

/-- The eligibility gate in MockedDB.retrieve: a record is skipped when its
requirement is truthy and the state has no "status" key equal to it. -/
def gatedOut (r : Record) (kwargs : State) : Bool :=
  match r.requirement with
  | none => false
  | some req =>
    if req == "" then false
    else
      match dictGet kwargs "status" with
      | none => true
      | some v =>
        match v with
        | Value.str s => !(s == req)
        | _ => true

/-- The filtering loop of MockedDB.retrieve (lines building `records`). -/
def MockedDB.filter_records (data : List Record) (kwargs : State) :
    Except String (List Record) :=
  match data with
  | [] => Except.ok []
  | r :: rs =>
    if gatedOut r kwargs then MockedDB.filter_records rs kwargs
    else
      match MockedDB.match_record r kwargs with
      | Except.error e => Except.error e
      | Except.ok m =>
        match MockedDB.filter_records rs kwargs with
        | Except.error e => Except.error e
        | Except.ok rest => Except.ok (if m then r :: rest else rest)

/-- Insert x into an already sorted list, after every element y with
le y x = true: the placement CPython's stable sort gives elements processed
in list order. -/
def insStable (le : α → α → Bool) (x : α) : List α → List α
  | [] => [x]
  | y :: ys => if le y x then y :: insStable le x ys else x :: y :: ys

/-- Stable sort by repeated insertion, processing the list left to right. -/
def stableSort (le : α → α → Bool) (l : List α) : List α :=
  l.foldl (fun acc x => insStable le x acc) []

/-- Python `x[key]` where key is an arbitrary value: record dicts have only
string keys, so a non-string key is a KeyError like any unknown key. -/
def recordGetV (r : Record) (k : Value) : Except String Value :=
  match k with
  | Value.str s => r.get s
  | _ => Except.error "KeyError"

/-- All sort keys are ints (price or data): decorate with them. -/
def allInts : List (Value × Record) → Option (List (Int × Record))
  | [] => some []
  | (Value.int n, r) :: rest => (allInts rest).map (fun l => (n, r) :: l)
  | _ => none

/-- All sort keys are strings (name): decorate with them. -/
def allStrs : List (Value × Record) → Option (List (String × Record))
  | [] => some []
  | (Value.str s, r) :: rest => (allStrs rest).map (fun l => (s, r) :: l)
  | _ => none

/-- sorted(records, key=..., reverse=...) over the extracted keys: a stable
comparison sort; comparing mixed or unordered key types is a TypeError. -/
def sortDecorated (l : List (Value × Record)) (reverse : Bool) :
    Except String (List Record) :=
  match allInts l with
  | some li =>
    Except.ok ((stableSort
      (fun a b => if reverse then decide (b.1 ≤ a.1) else decide (a.1 ≤ b.1)) li).map
        (fun p => p.2))
  | none =>
    match allStrs l with
    | some ls =>
      Except.ok ((stableSort
        (fun a b => if reverse then decide (b.1 ≤ a.1) else decide (a.1 ≤ b.1)) ls).map
          (fun p => p.2))
    | none => Except.error "TypeError"

/-- Python truthiness of the sort_config argument (`if not sort_config`). -/
def pyTruthy (v : Value) : Bool :=
  match v with
  | Value.null => false
  | Value.str s => !(s == "")
  | Value.int n => !(n == 0)
  | Value.dict d => !d.isEmpty

/-- MockedDB._sort_records: default is ascending by price; otherwise sort by
record[sort_config["value"]], descending when sort_config["ordering"] is
"descend". -/
def MockedDB.sort_records (records : List Record) (sort_config : Option Value) :
    Except String (List Record) :=
  match sort_config with
  | none => Except.ok (stableSort (fun a b => decide (a.price ≤ b.price)) records)
  | some cfg =>
    if !(pyTruthy cfg) then
      Except.ok (stableSort (fun a b => decide (a.price ≤ b.price)) records)
    else
      match cfg.getItem "value" with
      | Except.error e => Except.error e
      | Except.ok key =>
        match cfg.getItem "ordering" with
        | Except.error e => Except.error e
        | Except.ok ordv =>
          match (records.mapM (fun r =>
            (recordGetV r key).map (fun v => (v, r)))) with
          | Except.error e => Except.error e
          | Except.ok decorated => sortDecorated decorated (isStrEq (some ordv) "descend")

/-- MockedDB.retrieve: filter through the eligibility gate and the matcher,
return directly when at most one record survives, otherwise sort. -/
def MockedDB.retrieve (data : List Record) (kwargs : State) :
    Except String (List Record) :=
  match MockedDB.filter_records data kwargs with
  | Except.error e => Except.error e
  | Except.ok records =>
    if records.length ≤ 1 then Except.ok records
    else MockedDB.sort_records records (dictGet kwargs "sort")

/-- One session-history entry (role-tagged message). -/
structure Msg where
  role : String
  content : String
deriving DecidableEq, Repr

/-- The two prompt templates handed to DialogManager. -/
structure Templates where
  recommand : String
  not_found : String

/-- DialogManager state: the dialog state dict and the session history. -/
structure DialogManager where
  state : State
  session : List Msg

/-- DialogManager._create_recommend_prompt: substitute the user input and
the top record's items (name, price, data, requirement, in dict order). -/
def DialogManager.create_recommend_prompt (tmpl : Templates) (user_input : String)
    (record : Record) : String :=
  let p := tmpl.recommand.replace "__INPUT__" user_input
  let p := p.replace "__NAME__" record.name
  let p := p.replace "__PRICE__" (toString record.price)
  let p := p.replace "__DATA__" (toString record.data)
  p.replace "__REQUIREMENT__" (pyStr (match record.requirement with
    | some s => Value.str s
    | none => Value.null))

/-- DialogManager._create_not_found_prompt: substitute the user input and
the state items; an operator-carrying dict renders as operator + value
(value["value"] can raise KeyError), anything else as str(value). -/
def DialogManager.create_not_found_prompt (tmpl : Templates) (user_input : String)
    (state : State) : Except String String :=
  let p0 := tmpl.not_found.replace "__INPUT__" user_input
  state.foldlM (fun p kv =>
    let pat := "__" ++ kv.1.toUpper ++ "__"
    match kv.2 with
    | Value.dict d =>
      if containsKey d "operator" then
        match (Value.dict d).getItem "value" with
        | Except.error e => Except.error e
        | Except.ok vv =>
          Except.ok (p.replace pat
            (pyStr ((dictGet d "operator").getD Value.null) ++ pyStr vv))
      else Except.ok (p.replace pat (pyStr (Value.dict d)))
    | v => Except.ok (p.replace pat (pyStr v))) p0

/-- DialogManager._create_prompt: not-found template on an empty result,
recommend template on the top-ranked record otherwise. -/
def DialogManager.create_prompt (tmpl : Templates) (state : State)
    (user_input : String) (records : List Record) : Except String String :=
  match records with
  | [] => DialogManager.create_not_found_prompt tmpl user_input state
  | r :: _ => Except.ok (DialogManager.create_recommend_prompt tmpl user_input r)

/-- DialogManager.run for one turn.  The two external capabilities are
passed in: `semantics` is the structured result of nlu.parse for this
utterance, and `gen` is the response-generation call.  The returned pair is
the outcome (reply or raised exception) together with the DialogManager
fields as the object holds them afterwards: the state dict is reassigned by
the merge before retrieval and generation run, and the session grows only
after generation succeeds. -/
def DialogManager.run (dm : DialogManager) (tmpl : Templates) (user_input : String)
    (semantics : State) (gen : String → Except String String) :
    Except String String × DialogManager :=
  let merged := DST.updateRes dm.state semantics
  let dm1 : DialogManager := { dm with state := merged.1 }
  match merged.2 with
  | some e => (Except.error e, dm1)
  | none =>
    match MockedDB.retrieve mockedDBData dm1.state with
    | Except.error e => (Except.error e, dm1)
    | Except.ok records =>
      match DialogManager.create_prompt tmpl dm1.state user_input records with
      | Except.error e => (Except.error e, dm1)
      | Except.ok prompt =>
        match gen prompt with
        | Except.error e => (Except.error e, dm1)
        | Except.ok response =>
          (Except.ok response,
           { state := dm1.state,
             session := dm.session ++ [⟨"user", user_input⟩, ⟨"assistant", response⟩] })

theorem dictGet_nil (a : String) : dictGet [] a = none := rfl

theorem dictGet_cons (p : String × Value) (d : Dict) (a : String) :
    dictGet (p :: d) a = if p.1 == a then some p.2 else dictGet d a := by
  unfold dictGet
  by_cases hp : p.1 == a
  · simp [List.find?_cons, hp]
  · simp [List.find?_cons, hp]

theorem dictGet_insertKey_ne (d : Dict) (k a : String) (v : Value) (h : k ≠ a) :
    dictGet (insertKey d k v) a = dictGet d a := by
  have hka : (k == a) = false := by simpa using h
  induction d with
  | nil =>
    unfold insertKey
    rw [dictGet_cons]
    simp [hka]
  | cons p ps ih =>
    unfold insertKey
    by_cases hp : p.1 == k
    · rw [if_pos hp, dictGet_cons, dictGet_cons]
      have hpk : p.1 = k := by simpa using hp
      rw [hpk, hka]
      simp
    · rw [if_neg hp, dictGet_cons, dictGet_cons]
      by_cases hpa : p.1 == a
      · simp [hpa]
      · simp only [hpa, if_false]
        simpa using ih

theorem dictGet_dictUpdate_not_mem (d m : Dict) (a : String)
    (h : ∀ p ∈ m, p.1 ≠ a) : dictGet (dictUpdate d m) a = dictGet d a := by
  induction m generalizing d with
  | nil => rfl
  | cons p ps ih =>
    unfold dictUpdate
    simp only [List.foldl_cons]
    have step : dictGet (insertKey d p.1 p.2) a = dictGet d a :=
      dictGet_insertKey_ne d p.1 a p.2 (h p (List.mem_cons_self p ps))
    have tail := ih (insertKey d p.1 p.2) (fun q hq => h q (List.mem_cons_of_mem p hq))
    unfold dictUpdate at tail
    rw [tail, step]

theorem dictGet_eraseKey_self (d : Dict) (a : String) :
    dictGet (eraseKey d a) a = none := by
  induction d with
  | nil => rfl
  | cons p ps ih =>
    unfold eraseKey
    simp only [List.filter_cons]
    by_cases hp : p.1 == a
    · simp only [hp, Bool.not_true, if_false]
      exact ih
    · simp only [hp, Bool.not_false, if_true]
      rw [dictGet_cons]
      simp only [hp, if_false]
      exact ih

theorem insertKey_not_contains (d : Dict) (k : String) (v : Value)
    (h : containsKey d k = false) : insertKey d k v = d ++ [(k, v)] := by
  induction d with
  | nil => rfl
  | cons p ps ih =>
    unfold containsKey at h
    simp only [List.any_cons, Bool.or_eq_false_iff] at h
    unfold insertKey
    rw [if_neg (by simp [h.1])]
    rw [ih h.2]
    simp

theorem containsKey_append (d e : Dict) (k : String) :
    containsKey (d ++ e) k = (containsKey d k || containsKey e k) := by
  unfold containsKey
  exact List.any_append

theorem dictUpdate_append_disjoint (d m : Dict)
    (hdis : ∀ p ∈ m, containsKey d p.1 = false)
    (hnodup : (m.map Prod.fst).Nodup) : dictUpdate d m = d ++ m := by
  induction m generalizing d with
  | nil => simp [dictUpdate]
  | cons p ps ih =>
    unfold dictUpdate
    simp only [List.foldl_cons]
    rw [insertKey_not_contains d p.1 p.2 (hdis p (List.mem_cons_self p ps))]
    have hnodup2 : (ps.map Prod.fst).Nodup := by
      simp only [List.map_cons, List.nodup_cons] at hnodup
      exact hnodup.2
    have hdis2 : ∀ q ∈ ps, containsKey (d ++ [(p.1, p.2)]) q.1 = false := by
      intro q hq
      rw [containsKey_append]
      have h1 : containsKey d q.1 = false := hdis q (List.mem_cons_of_mem p hq)
      have hne : p.1 ≠ q.1 := by
        simp only [List.map_cons, List.nodup_cons] at hnodup
        intro hh
        exact hnodup.1 (by rw [hh]; exact List.mem_map_of_mem Prod.fst hq)
      have h2 : containsKey [(p.1, p.2)] q.1 = false := by
        have : (p.1 == q.1) = false := by simpa using hne
        simp [containsKey, this]
      simp [h1, h2]
    have := ih (d ++ [(p.1, p.2)]) hdis2 hnodup2
    unfold dictUpdate at this
    rw [this, List.append_assoc]
    rfl

theorem dictUpdate_nil_nodup (m : Dict) (hnodup : (m.map Prod.fst).Nodup) :
    dictUpdate [] m = m := by
  rw [dictUpdate_append_disjoint [] m (fun p _ => rfl) hnodup]
  rfl

theorem mem_insStable {le : α → α → Bool} {x a : α} :
    ∀ {l : List α}, x ∈ insStable le a l → x = a ∨ x ∈ l := by
  intro l
  induction l with
  | nil =>
    intro h
    unfold insStable at h
    exact Or.inl (List.mem_singleton.mp h)
  | cons y ys ih =>
    intro h
    unfold insStable at h
    by_cases hy : le y a
    · rw [if_pos hy] at h
      rcases List.mem_cons.mp h with h2 | h2
      · exact Or.inr (by simp [h2])
      · rcases ih h2 with h3 | h3
        · exact Or.inl h3
        · exact Or.inr (List.mem_cons_of_mem _ h3)
    · rw [if_neg hy] at h
      exact (List.mem_cons.mp h).imp id id

theorem mem_foldl_insStable {le : α → α → Bool} {x : α} :
    ∀ (l acc : List α), x ∈ l.foldl (fun acc y => insStable le y acc) acc →
      x ∈ acc ∨ x ∈ l := by
  intro l
  induction l with
  | nil =>
    intro acc h
    exact Or.inl h
  | cons y ys ih =>
    intro acc h
    simp only [List.foldl_cons] at h
    rcases ih (insStable le y acc) h with h2 | h2
    · rcases mem_insStable h2 with h3 | h3
      · exact Or.inr (by simp [h3])
      · exact Or.inl h3
    · exact Or.inr (List.mem_cons_of_mem _ h2)

theorem mem_stableSort {le : α → α → Bool} {x : α} {l : List α}
    (h : x ∈ stableSort le l) : x ∈ l := by
  unfold stableSort at h
  rcases mem_foldl_insStable l [] h with h2 | h2
  · cases h2
  · exact h2

theorem mem_allInts :
    ∀ {l : List (Value × Record)} {li : List (Int × Record)},
      allInts l = some li → ∀ p ∈ li, ∃ q ∈ l, q.2 = p.2 := by
  intro l
  induction l with
  | nil =>
    intro li h p hp
    unfold allInts at h
    cases h
    cases hp
  | cons q qs ih =>
    intro li h p hp
    obtain ⟨v, r⟩ := q
    cases v with
    | int n =>
      unfold allInts at h
      cases hrest : allInts qs with
      | none =>
        rw [hrest] at h
        cases h
      | some rest =>
        rw [hrest] at h
        have hli : (n, r) :: rest = li := by
          simpa [Option.map] using h
        rw [← hli] at hp
        rcases List.mem_cons.mp hp with hp2 | hp2
        · exact ⟨(Value.int n, r), List.mem_cons_self _ _, by simp [hp2]⟩
        · rcases ih hrest p hp2 with ⟨q2, hq2, hq2e⟩
          exact ⟨q2, List.mem_cons_of_mem _ hq2, hq2e⟩
    | null => unfold allInts at h; cases h
    | str s => unfold allInts at h; cases h
    | dict d => unfold allInts at h; cases h

theorem mem_allStrs :
    ∀ {l : List (Value × Record)} {ls : List (String × Record)},
      allStrs l = some ls → ∀ p ∈ ls, ∃ q ∈ l, q.2 = p.2 := by
  intro l
  induction l with
  | nil =>
    intro ls h p hp
    unfold allStrs at h
    cases h
    cases hp
  | cons q qs ih =>
    intro ls h p hp
    obtain ⟨v, r⟩ := q
    cases v with
    | str s =>
      unfold allStrs at h
      cases hrest : allStrs qs with
      | none =>
        rw [hrest] at h
        cases h
      | some rest =>
        rw [hrest] at h
        have hls : (s, r) :: rest = ls := by
          simpa [Option.map] using h
        rw [← hls] at hp
        rcases List.mem_cons.mp hp with hp2 | hp2
        · exact ⟨(Value.str s, r), List.mem_cons_self _ _, by simp [hp2]⟩
        · rcases ih hrest p hp2 with ⟨q2, hq2, hq2e⟩
          exact ⟨q2, List.mem_cons_of_mem _ hq2, hq2e⟩
    | null => unfold allStrs at h; cases h
    | int n => unfold allStrs at h; cases h
    | dict d => unfold allStrs at h; cases h

theorem mem_mapM_decorate {key : Value} :
    ∀ {records : List Record} {decorated : List (Value × Record)},
      records.mapM (fun r => (recordGetV r key).map (fun v => (v, r))) =
        Except.ok decorated →
      ∀ p ∈ decorated, p.2 ∈ records := by
  intro records
  induction records with
  | nil =>
    intro decorated h p hp
    simp only [List.mapM_nil, pure, Except.pure] at h
    cases h
    cases hp
  | cons r rs ih =>
    intro decorated h p hp
    simp only [List.mapM_cons, bind, Except.bind, pure, Except.pure] at h
    cases hr : (recordGetV r key).map (fun v => (v, r)) with
    | error e =>
      rw [hr] at h
      cases h
    | ok p0 =>
      rw [hr] at h
      cases hrs : rs.mapM (fun r => (recordGetV r key).map (fun v => (v, r))) with
      | error e =>
        rw [hrs] at h
        cases h
      | ok rest =>
        rw [hrs] at h
        have hdec : p0 :: rest = decorated := by
          simpa using h
        rw [← hdec] at hp
        rcases List.mem_cons.mp hp with hp2 | hp2
        · have hp02 : p0.2 = r := by
            cases hv : recordGetV r key with
            | error e => rw [hv] at hr; cases hr
            | ok v =>
              rw [hv] at hr
              simp only [Except.map] at hr
              cases hr
              rfl
          rw [hp2, hp02]
          exact List.mem_cons_self _ _
        · exact List.mem_cons_of_mem _ (ih hrs p hp2)

theorem mem_sortDecorated {decorated : List (Value × Record)} {reverse : Bool}
    {l : List Record} {r : Record}
    (h : sortDecorated decorated reverse = Except.ok l) (hr : r ∈ l) :
    ∃ q ∈ decorated, q.2 = r := by
  unfold sortDecorated at h
  cases hints : allInts decorated with
  | some li =>
    rw [hints] at h
    simp only [Except.ok.injEq] at h
    rw [← h] at hr
    rcases List.mem_map.mp hr with ⟨p, hp, hpe⟩
    have hp2 := mem_stableSort hp
    rcases mem_allInts hints p hp2 with ⟨q, hq, hqe⟩
    exact ⟨q, hq, by rw [hqe, hpe]⟩
  | none =>
    rw [hints] at h
    cases hstrs : allStrs decorated with
    | some ls =>
      rw [hstrs] at h
      simp only [Except.ok.injEq] at h
      rw [← h] at hr
      rcases List.mem_map.mp hr with ⟨p, hp, hpe⟩
      have hp2 := mem_stableSort hp
      rcases mem_allStrs hstrs p hp2 with ⟨q, hq, hqe⟩
      exact ⟨q, hq, by rw [hqe, hpe]⟩
    | none =>
      rw [hstrs] at h
      cases h

theorem mem_sort_records {records l : List Record} {cfg : Option Value} {r : Record}
    (h : MockedDB.sort_records records cfg = Except.ok l) (hr : r ∈ l) :
    r ∈ records := by
  unfold MockedDB.sort_records at h
  split at h
  next =>
    simp only [Except.ok.injEq] at h
    rw [← h] at hr
    exact mem_stableSort hr
  next c =>
    split at h
    next =>
      simp only [Except.ok.injEq] at h
      rw [← h] at hr
      exact mem_stableSort hr
    next =>
      split at h
      next e hkey => exact Except.noConfusion h
      next key hkey =>
        split at h
        next e hord => exact Except.noConfusion h
        next ordv hord =>
          split at h
          next e hdec => exact Except.noConfusion h
          next decorated hdec =>
            rcases mem_sortDecorated h hr with ⟨q, hq, hqe⟩
            have := mem_mapM_decorate hdec q hq
            rw [hqe] at this
            exact this

theorem mem_filter_records {kwargs : State} {r : Record} :
    ∀ {data l : List Record},
      MockedDB.filter_records data kwargs = Except.ok l → r ∈ l →
      r ∈ data ∧ gatedOut r kwargs = false := by
  intro data
  induction data with
  | nil =>
    intro l h hr
    unfold MockedDB.filter_records at h
    cases h
    cases hr
  | cons d ds ih =>
    intro l h hr
    unfold MockedDB.filter_records at h
    by_cases hg : gatedOut d kwargs
    · rw [if_pos hg] at h
      rcases ih h hr with ⟨h1, h2⟩
      exact ⟨List.mem_cons_of_mem _ h1, h2⟩
    · rw [if_neg hg] at h
      split at h
      next e hm => exact Except.noConfusion h
      next m hm =>
        split at h
        next e hrest => exact Except.noConfusion h
        next rest hrest =>
          simp only [Except.ok.injEq] at h
          rw [← h] at hr
          by_cases hmv : m
          · rw [if_pos hmv] at hr
            rcases List.mem_cons.mp hr with hr2 | hr2
            · rw [hr2]
              exact ⟨List.mem_cons_self _ _, by simpa using hg⟩
            · rcases ih hrest hr2 with ⟨h1, h2⟩
              exact ⟨List.mem_cons_of_mem _ h1, h2⟩
          · rw [if_neg hmv] at hr
            rcases ih hrest hr with ⟨h1, h2⟩
            exact ⟨List.mem_cons_of_mem _ h1, h2⟩

theorem mem_retrieve {data l : List Record} {kwargs : State} {r : Record}
    (h : MockedDB.retrieve data kwargs = Except.ok l) (hr : r ∈ l) :
    r ∈ data ∧ gatedOut r kwargs = false := by
  unfold MockedDB.retrieve at h
  split at h
  next e hf => exact Except.noConfusion h
  next recs hf =>
    by_cases hlen : recs.length ≤ 1
    · rw [if_pos hlen] at h
      simp only [Except.ok.injEq] at h
      rw [← h] at hr
      exact mem_filter_records hf hr
    · rw [if_neg hlen] at h
      exact mem_filter_records hf (mem_sort_records h hr)

theorem DST.update_eq (state semantics : State) :
    DST.update state semantics =
      match (DST.updateRes state semantics).2 with
      | none => Except.ok (DST.updateRes state semantics).1
      | some e => Except.error e := by
  unfold DST.update
  cases h : DST.updateRes state semantics with
  | mk st err => cases err <;> rfl

theorem DST.updateRes_name (state semantics : State)
    (hname : containsKey semantics "name" = true) :
    DST.updateRes state semantics = DST.sortMergeRes [] semantics := by
  unfold DST.updateRes
  rw [hname]
  rfl

theorem DST.updateRes_no_name (state semantics : State)
    (hname : containsKey semantics "name" = false) :
    DST.updateRes state semantics = DST.sortMergeRes state semantics := by
  unfold DST.updateRes
  rw [hname]
  rfl

/-- C1 counterexample: on the empty dialog state and the fixed 4-record
catalog, retrieve does not return four records with prices
[50, 150, 180, 300]: the requirement-gated record is dropped. -/
theorem c1_empty_state_counterexample :
    Except.map (List.map Record.price) (MockedDB.retrieve mockedDBData []) ≠
      Except.ok [50, 150, 180, 300] := by
  intro h
  rw [show Except.map (List.map Record.price) (MockedDB.retrieve mockedDBData []) =
      Except.ok [50, 180, 300] from rfl] at h
  simp at h

/-- C1 (amended): on the empty dialog state, retrieve returns exactly the
three records without an eligibility requirement, ordered ascending by
price [50, 180, 300]; the gated 校园套餐 record (price 150, requirement
"在校生") is excluded by the eligibility gate. -/
theorem c1_empty_state_retrieval :
    MockedDB.retrieve mockedDBData [] =
      Except.ok [⟨"经济套餐", 50, 10, none⟩, ⟨"畅游套餐", 180, 100, none⟩,
        ⟨"无限套餐", 300, 1000, none⟩] ∧
    Except.map (List.map Record.price) (MockedDB.retrieve mockedDBData []) =
      Except.ok [50, 180, 300] :=
  ⟨rfl, rfl⟩

/-- C2: contrary to the claim that unrecognized state keys are ignored by
retrieve, a state key that is not a catalog attribute raises KeyError
(record[key] in _match_record) as soon as one record passes the eligibility
gate; dropping the key gives a normal result.  The code contradicts the
documented forward-compatibility policy. -/
theorem c2_unknown_key_raises :
    MockedDB.retrieve mockedDBData [("foo", Value.str "x")] =
      Except.error "KeyError" ∧
    MockedDB.retrieve mockedDBData [("status", Value.str "在校生")] =
      Except.error "KeyError" ∧
    Except.map (List.map Record.price) (MockedDB.retrieve mockedDBData []) =
      Except.ok [50, 180, 300] :=
  ⟨rfl, rfl, rfl⟩

/-- C3 counterexample: DST.update is not total — merging a sort directive
on an attribute whose current constraint is a bare string (an Exact
constraint, a shape the data model allows) raises AttributeError from
state[slot].get("operator"). -/
theorem c3_update_raises_counterexample :
    DST.update [("name", Value.str "经济套餐")]
      [("sort", Value.dict [("value", Value.str "name"),
        ("ordering", Value.str "ascend")])] =
      Except.error "AttributeError" := rfl

/-- C3 (amended): DST.update is deterministic and pure, and it returns a
state without raising provided that, whenever the diff carries a sort
entry, that entry subscripts to a "value" slot, the slot is not itself a
dict (dicts are unhashable), and the state entry at the attribute the slot
names (after the name-clear step, if it fires) is dict-shaped; outside
these conditions the merge can raise. -/
theorem c3_update_total_when_wellformed (state semantics : State)
    (h : ∀ sv, dictGet semantics "sort" = some sv →
      ∃ slot, sv.getItem "value" = Except.ok slot ∧
        (∀ d2, slot ≠ Value.dict d2) ∧
        ∀ a, slot = Value.str a →
          ∀ v, dictGet (if containsKey semantics "name" then [] else state) a =
            some v → ∃ c, v = Value.dict c) :
    ∃ st, DST.update state semantics = Except.ok st := by
  refine ⟨(DST.updateRes state semantics).1, ?_⟩
  rw [DST.update_eq]
  suffices hn : (DST.updateRes state semantics).2 = none by rw [hn]
  unfold DST.updateRes DST.sortMergeRes
  cases hs : dictGet semantics "sort" with
  | none => rfl
  | some sv =>
    obtain ⟨slot, hslot, hnd, hv⟩ := h sv hs
    cases slot with
    | null => simp [hslot]
    | int n => simp [hslot]
    | dict d => exact absurd rfl (hnd d)
    | str a =>
      cases hg : dictGet (if containsKey semantics "name" then [] else state) a with
      | none => simp [hslot, hg]
      | some v =>
        obtain ⟨c, rfl⟩ := hv a rfl v hg
        by_cases hop : isStrEq (dictGet c "operator") "=="
        · simp [hslot, hg, hop]
        · simp [hslot, hg, hop]

/-- Witness for C3 (amended) at a diff without a sort entry. -/
theorem c3_update_total_witness :
    ∃ st, DST.update
      [("price", Value.dict [("operator", Value.str "<="), ("value", Value.int 200)])]
      [("data", Value.dict [("operator", Value.str ">="), ("value", Value.int 100)])] =
      Except.ok st :=
  c3_update_total_when_wellformed _ _ (fun _sv hs => nomatch hs)

/-- C4: merging a diff that carries a sort directive on attribute A (and no
name key and no new binding for A) into a state whose constraint on A is
dict-shaped removes the constraint on A exactly when its operator is the
equality operator; any other operator (the comparatives) leaves the
constraint untouched. -/
theorem c4_sort_removes_only_equality (state diff : State) (a : String)
    (c : Dict) (sv : Value)
    (hstate : dictGet state a = some (Value.dict c))
    (hname : containsKey diff "name" = false)
    (hsort : dictGet diff "sort" = some sv)
    (hslot : sv.getItem "value" = Except.ok (Value.str a))
    (hdiffa : containsKey diff a = false) :
    ∃ st, DST.update state diff = Except.ok st ∧
      dictGet st a = (if isStrEq (dictGet c "operator") "==" then none
        else some (Value.dict c)) := by
  have hdiffa2 : ∀ p ∈ diff, p.1 ≠ a := by
    intro p hp hpa
    have : (diff.any fun q => q.1 == a) = true :=
      List.any_eq_true.mpr ⟨p, hp, by simp [hpa]⟩
    rw [containsKey] at hdiffa
    rw [hdiffa] at this
    cases this
  have hres : DST.updateRes state diff =
      (if isStrEq (dictGet c "operator") "==" then
        dictUpdate (eraseKey state a) diff
       else dictUpdate state diff, none) := by
    rw [DST.updateRes_no_name state diff hname]
    unfold DST.sortMergeRes
    by_cases hop : isStrEq (dictGet c "operator") "=="
    · simp [hsort, hslot, hstate, hop]
    · simp [hsort, hslot, hstate, hop]
  refine ⟨(DST.updateRes state diff).1, ?_, ?_⟩
  · rw [DST.update_eq, hres]
  · rw [hres]
    by_cases hop : isStrEq (dictGet c "operator") "=="
    · rw [if_pos hop, if_pos hop]
      rw [dictGet_dictUpdate_not_mem _ _ _ hdiffa2, dictGet_eraseKey_self]
    · rw [if_neg hop, if_neg hop]
      rw [dictGet_dictUpdate_not_mem _ _ _ hdiffa2, hstate]

/-- Witness for C4: an equality constraint on price is removed by a price
sort directive, while a comparative (<=) constraint on price survives it. -/
theorem c4_witness :
    (∃ st, DST.update
        [("price", Value.dict [("operator", Value.str "=="), ("value", Value.int 180)])]
        [("sort", Value.dict [("value", Value.str "price"), ("ordering", Value.str "ascend")])] =
        Except.ok st ∧ dictGet st "price" = none) ∧
    (∃ st, DST.update
        [("price", Value.dict [("operator", Value.str "<="), ("value", Value.int 200)])]
        [("sort", Value.dict [("value", Value.str "price"), ("ordering", Value.str "ascend")])] =
        Except.ok st ∧ dictGet st "price" =
          some (Value.dict [("operator", Value.str "<="), ("value", Value.int 200)])) := by
  constructor
  · obtain ⟨st, h1, h2⟩ := c4_sort_removes_only_equality
      [("price", Value.dict [("operator", Value.str "=="), ("value", Value.int 180)])]
      [("sort", Value.dict [("value", Value.str "price"), ("ordering", Value.str "ascend")])]
      "price" [("operator", Value.str "=="), ("value", Value.int 180)] _ rfl rfl rfl rfl rfl
    exact ⟨st, h1, by simpa using h2⟩
  · obtain ⟨st, h1, h2⟩ := c4_sort_removes_only_equality
      [("price", Value.dict [("operator", Value.str "<="), ("value", Value.int 200)])]
      [("sort", Value.dict [("value", Value.str "price"), ("ordering", Value.str "ascend")])]
      "price" [("operator", Value.str "<="), ("value", Value.int 200)] _ rfl rfl rfl rfl rfl
    exact ⟨st, h1, by simpa using h2⟩

/-- C5: when the diff carries a name key, the merge discards every
pre-existing key of the state: whenever DST.update returns a state, that
state is exactly the diff. -/
theorem c5_name_clears_state (state diff st : State)
    (hname : containsKey diff "name" = true)
    (hnodup : (diff.map Prod.fst).Nodup)
    (hok : DST.update state diff = Except.ok st) :
    st = diff := by
  rw [DST.update_eq, DST.updateRes_name state diff hname] at hok
  unfold DST.sortMergeRes at hok
  cases hs : dictGet diff "sort" with
  | none =>
    simp only [hs, Except.ok.injEq] at hok
    rw [← hok]
    exact dictUpdate_nil_nodup diff hnodup
  | some sv =>
    cases hgi : sv.getItem "value" with
    | error e =>
      simp only [hs, hgi] at hok
      exact Except.noConfusion hok
    | ok slot =>
      cases slot with
      | null =>
        simp only [hs, hgi, Except.ok.injEq] at hok
        rw [← hok]
        exact dictUpdate_nil_nodup diff hnodup
      | int n =>
        simp only [hs, hgi, Except.ok.injEq] at hok
        rw [← hok]
        exact dictUpdate_nil_nodup diff hnodup
      | dict d =>
        simp only [hs, hgi] at hok
        exact Except.noConfusion hok
      | str a =>
        simp only [hs, hgi, dictGet_nil, Except.ok.injEq] at hok
        rw [← hok]
        exact dictUpdate_nil_nodup diff hnodup

/-- Witness for C5: a price constraint is wiped by a name-carrying diff. -/
theorem c5_witness :
    ([("name", Value.str "经济套餐")] : State) = [("name", Value.str "经济套餐")] :=
  c5_name_clears_state
    [("price", Value.dict [("operator", Value.str "<="), ("value", Value.int 200)])]
    [("name", Value.str "经济套餐")] [("name", Value.str "经济套餐")]
    rfl (by simp) rfl

/-- C6: a dict-shaped data constraint whose "value" slot is the unbounded
sentinel "无上限" matches a record exactly when the record's data attribute
equals the fixed constant 1000, whatever the rest of the record looks
like — a merely large data value is rejected. -/
theorem c6_unbounded_sentinel (r : Record) (d : Dict)
    (h : dictGet d "value" = some (Value.str "无上限")) :
    MockedDB.match_record r [("data", Value.dict d)] =
      Except.ok (r.data == 1000) := by
  have hsent : isSentinelDict (Value.dict d) = true := by
    unfold isSentinelDict isStrEq
    simp [h]
  unfold MockedDB.match_record
  rw [if_neg (by decide)]
  rw [if_pos (by simp [hsent])]
  by_cases hd : r.data = 1000
  · simp [MockedDB.match_record, hd]
  · simp [MockedDB.match_record, hd]

/-- Witness for C6: the sentinel matches the data-1000 catalog record and
rejects a record with a larger data value. -/
theorem c6_witness :
    MockedDB.match_record ⟨"无限套餐", 300, 1000, none⟩
      [("data", Value.dict [("operator", Value.str "=="), ("value", Value.str "无上限")])] =
      Except.ok true ∧
    MockedDB.match_record ⟨"big", 10, 5000, none⟩
      [("data", Value.dict [("operator", Value.str "=="), ("value", Value.str "无上限")])] =
      Except.ok false := by
  constructor
  · have := c6_unbounded_sentinel ⟨"无限套餐", 300, 1000, none⟩
      [("operator", Value.str "=="), ("value", Value.str "无上限")] rfl
    simpa using this
  · have := c6_unbounded_sentinel ⟨"big", 10, 5000, none⟩
      [("operator", Value.str "=="), ("value", Value.str "无上限")] rfl
    simpa using this

/-- C7: a record whose requirement is a non-empty string is never in an
ok-result of retrieve when the state's "status" entry does not equal the
requirement string, and a record without a requirement is never excluded
by the eligibility gate. -/
theorem c7_eligibility_gate :
    (∀ (data : List Record) (kwargs : State) (l : List Record) (r : Record)
      (req : String),
      MockedDB.retrieve data kwargs = Except.ok l →
      r.requirement = some req → req ≠ "" →
      isStrEq (dictGet kwargs "status") req = false →
      r ∉ l) ∧
    (∀ (r : Record) (kwargs : State), r.requirement = none →
      gatedOut r kwargs = false) := by
  constructor
  · intro data kwargs l r req hret hreq hreqne hstatus hmem
    rcases mem_retrieve hret hmem with ⟨_, hgate⟩
    have hne : (req == "") = false := by simpa using hreqne
    unfold gatedOut at hgate
    simp only [hreq, hne, Bool.false_eq_true, if_false] at hgate
    cases hst : dictGet kwargs "status" with
    | none =>
      simp only [hst] at hgate
      exact Bool.noConfusion hgate
    | some v =>
      cases v with
      | str s =>
        simp only [hst] at hgate
        unfold isStrEq at hstatus
        simp only [hst] at hstatus
        rw [hstatus] at hgate
        exact Bool.noConfusion hgate
      | null =>
        simp only [hst] at hgate
        exact Bool.noConfusion hgate
      | int n =>
        simp only [hst] at hgate
        exact Bool.noConfusion hgate
      | dict d2 =>
        simp only [hst] at hgate
        exact Bool.noConfusion hgate
  · intro r kwargs h
    unfold gatedOut
    rw [h]

/-- Witness for C7: the gated 校园套餐 record is absent from the result of
retrieve over a one-record catalog with no status in the state, and an
ungated record passes the gate whatever the status value is. -/
theorem c7_witness :
    ((⟨"校园套餐", 150, 200, some "在校生"⟩ : Record) ∉ ([] : List Record)) ∧
    gatedOut ⟨"经济套餐", 50, 10, none⟩ [("status", Value.str "x")] = false := by
  constructor
  · exact c7_eligibility_gate.1 [⟨"校园套餐", 150, 200, some "在校生"⟩] [] []
      ⟨"校园套餐", 150, 200, some "在校生"⟩ "在校生" rfl rfl (by decide) rfl
  · exact c7_eligibility_gate.2 ⟨"经济套餐", 50, 10, none⟩
      [("status", Value.str "x")] rfl

/-- C8: within one turn, the dialog state is reassigned by the merge before
the generation call; when the merge and retrieval succeed and the prompt is
built but generation raises, run surfaces the error while keeping the
merged state, and the session history is not extended. -/
theorem c8_state_kept_on_generation_failure (dm : DialogManager)
    (tmpl : Templates) (user_input : String) (semantics : State)
    (gen : String → Except String String) (st : State) (records : List Record)
    (prompt e : String)
    (hmerge : DST.updateRes dm.state semantics = (st, none))
    (hret : MockedDB.retrieve mockedDBData st = Except.ok records)
    (hprompt : DialogManager.create_prompt tmpl st user_input records =
      Except.ok prompt)
    (hgen : gen prompt = Except.error e) :
    DialogManager.run dm tmpl user_input semantics gen =
      (Except.error e, ⟨st, dm.session⟩) := by
  unfold DialogManager.run
  simp only [hmerge, hret, hprompt, hgen]

/-- Witness for C8: a generation call that always fails leaves the merged
state in place and produces the raised error. -/
theorem c8_witness :
    DialogManager.run ⟨[], []⟩ ⟨"R__INPUT__", "N__INPUT__"⟩ "hi"
      [("price", Value.dict [("operator", Value.str "<="), ("value", Value.int 200)])]
      (fun _ => Except.error "APIError") =
      (Except.error "APIError",
        ⟨[("price", Value.dict [("operator", Value.str "<="), ("value", Value.int 200)])], []⟩) :=
  c8_state_kept_on_generation_failure ⟨[], []⟩ ⟨"R__INPUT__", "N__INPUT__"⟩ "hi"
    [("price", Value.dict [("operator", Value.str "<="), ("value", Value.int 200)])]
    (fun _ => Except.error "APIError")
    [("price", Value.dict [("operator", Value.str "<="), ("value", Value.int 200)])]
    [⟨"经济套餐", 50, 10, none⟩, ⟨"畅游套餐", 180, 100, none⟩]
    (DialogManager.create_recommend_prompt ⟨"R__INPUT__", "N__INPUT__"⟩ "hi"
      ⟨"经济套餐", 50, 10, none⟩)
    "APIError" rfl rfl rfl rfl

/-- C9: the unbounded-sentinel rule fires only for the "data" key: for any
other (non-sort) attribute, a dict constraint whose "value" slot carries
the sentinel "无上限" is evaluated by the ordinary operator branch of
_match_record, not by the sentinel rule. -/
theorem c9_sentinel_only_for_data_key (r : Record) (key : String) (d : Dict)
    (hkey : key ≠ "data") (hsort : key ≠ "sort")
    (_hval : dictGet d "value" = some (Value.str "无上限")) :
    MockedDB.match_record r [(key, Value.dict d)] =
      MockedDB.operator_branch r key (Value.dict d) := by
  have hk1 : (key == "sort") = false := by simpa using hsort
  have hk2 : (key == "data") = false := by simpa using hkey
  simp only [MockedDB.match_record, MockedDB.operator_branch, hk1, hk2,
    Bool.false_eq_true, if_false, Bool.false_and]
  by_cases hop : containsKey d "operator"
  · simp only [hop, if_true]
    cases hrv : r.get key with
    | error e => simp only [hrv]
    | ok rv =>
      cases hvv : (Value.dict d).getItem "value" with
      | error e2 => simp only [hrv, hvv]
      | ok vv =>
        cases hec : evalCompare rv ((dictGet d "operator").getD Value.null) vv with
        | error e3 => simp only [hrv, hvv, hec]
        | ok b =>
          cases b with
          | true => simp [hrv, hvv, hec, MockedDB.match_record]
          | false => simp [hrv, hvv, hec]
  · simp only [hop, Bool.false_eq_true, if_false]
    cases hrv : r.get key with
    | error e => simp only [hrv]
    | ok rv =>
      cases hb : pyStr rv == pyStr (Value.dict d) with
      | true =>
        have hb2 : pyStr rv = pyStr (Value.dict d) := by simpa using hb
        simp [hrv, hb2, MockedDB.match_record]
      | false =>
        have hb2 : ¬(pyStr rv = pyStr (Value.dict d)) := by simpa using hb
        simp [hrv, hb2]

/-- Witness for C9: a price constraint with the sentinel value falls into
the eval branch and raises NameError (eval of an undefined identifier),
instead of the sentinel equality test the data key would get. -/
theorem c9_witness :
    MockedDB.match_record ⟨"无限套餐", 300, 1000, none⟩
      [("price", Value.dict [("operator", Value.str "<="), ("value", Value.str "无上限")])] =
      MockedDB.operator_branch ⟨"无限套餐", 300, 1000, none⟩ "price"
        (Value.dict [("operator", Value.str "<="), ("value", Value.str "无上限")]) ∧
    MockedDB.operator_branch ⟨"无限套餐", 300, 1000, none⟩ "price"
      (Value.dict [("operator", Value.str "<="), ("value", Value.str "无上限")]) =
      Except.error "NameError" := by
  constructor
  · exact c9_sentinel_only_for_data_key ⟨"无限套餐", 300, 1000, none⟩ "price"
      [("operator", Value.str "<="), ("value", Value.str "无上限")]
      (by decide) (by decide) rfl
  · rfl

/-- C10: when at most one record survives filtering, retrieve returns the
filtered list as is, never consulting the sort configuration; the sort
step runs only when at least two records survive. -/
theorem c10_sort_skipped_for_small_results (data : List Record)
    (kwargs : State) (l : List Record)
    (hfilter : MockedDB.filter_records data kwargs = Except.ok l) :
    (l.length ≤ 1 → MockedDB.retrieve data kwargs = Except.ok l) ∧
    (2 ≤ l.length → MockedDB.retrieve data kwargs =
      MockedDB.sort_records l (dictGet kwargs "sort")) := by
  constructor
  · intro hlen
    unfold MockedDB.retrieve
    simp only [hfilter]
    rw [if_pos hlen]
  · intro hlen
    unfold MockedDB.retrieve
    simp only [hfilter]
    rw [if_neg (by omega)]

/-- Witness for C10: with a single surviving record, retrieve returns it
even though the sort configuration is a bare string that the sorting step
could not subscript; with two or more survivors the sort step runs. -/
theorem c10_witness :
    MockedDB.retrieve [⟨"A", 1, 2, none⟩] [("sort", Value.str "junk")] =
      Except.ok [⟨"A", 1, 2, none⟩] ∧
    MockedDB.retrieve mockedDBData [] =
      MockedDB.sort_records
        [⟨"经济套餐", 50, 10, none⟩, ⟨"畅游套餐", 180, 100, none⟩,
          ⟨"无限套餐", 300, 1000, none⟩] (dictGet [] "sort") := by
  constructor
  · exact (c10_sort_skipped_for_small_results [⟨"A", 1, 2, none⟩]
      [("sort", Value.str "junk")] [⟨"A", 1, 2, none⟩] rfl).1 (by decide)
  · exact (c10_sort_skipped_for_small_results mockedDBData []
      [⟨"经济套餐", 50, 10, none⟩, ⟨"畅游套餐", 180, 100, none⟩,
        ⟨"无限套餐", 300, 1000, none⟩] rfl).2 (by decide)

end Advisor
